import Mathlib

/-!
Verification of the realtime chat broadcast core (`src/main.rs`).

The repository is a small Rocket application built on a tokio broadcast
channel.  The parts present in `src/main.rs` are embedded directly:

* the `Message` struct together with its form-validation attributes
  (`#[field(validate = len(..30))]` on `room`, `len(..20)` on `username`);
* the `post` handler, which forwards a validated `Message` to the channel;
* the `events` handler's stream loop, which races `rx.recv()` against the
  `Shutdown` future and maps the outcome to yield / continue / break.

The broadcast channel itself (`rocket::tokio::sync::broadcast`) is a library
whose implementation is not part of this repository's sources; its behaviour
(publish fan-out, per-subscriber cursor, lag-and-drop backpressure, the
closed outcome) is modelled from the spec, as marked on each definition.
-/

/-- The `Message` struct of `src/main.rs`: fields `room`, `username`,
`message` (the body). -/
structure Message where
  room : String
  username : String
  message : String
deriving DecidableEq, Repr

/-- Validation of the `room` field, from `#[field(validate = len(..30))]`:
the Rust range `..30` is exclusive above, so the length must be `< 30`. -/
def validRoom (r : String) : Bool := r.length < 30

/-- Validation of the `username` field, from `#[field(validate = len(..20))]`:
the Rust range `..20` is exclusive above, so the length must be `< 20`. -/
def validUsername (u : String) : Bool := u.length < 20

/-- Form validation of a whole `Message`: both bounded fields must pass;
the `message` body field carries no validation attribute. -/
def validateMessage (m : Message) : Bool :=
  validRoom m.room && validUsername m.username

/-- Modelled from the spec: the broadcast Hub (the tokio broadcast channel
created by `channel::<Message>(1024)`, whose implementation is not in this
repository).  `capacity` is the bounded buffer size `C`, `log` is the full
sequence of published messages in publish order, and `closed` records
whether the Hub has no further source of messages. -/
structure Hub where
  capacity : Nat
  log : List Message
  closed : Bool
deriving DecidableEq, Repr

/-- Modelled from the spec: the outcome of a publish call, distinguishing
"delivered to `n ≥ 1` subscribers" from the informational no-subscriber
outcome (tokio's `send` returns `Err` exactly when there is no receiver). -/
inductive PublishOutcome where
  | delivered (n : Nat)
  | noSubscribers
deriving DecidableEq, Repr

/-- Modelled from the spec: a Subscription is an independent read cursor
into the Hub's published sequence. -/
structure Subscription where
  cursor : Nat
deriving DecidableEq, Repr

/-- Index of the oldest message still retained by the bounded buffer: all
messages before `log.length - capacity` have been overwritten. -/
def Hub.oldestRetained (h : Hub) : Nat := h.log.length - h.capacity

/-- Modelled from the spec: `publish` appends the message to the published
sequence and returns immediately with a delivery outcome; it never blocks
and never fails — zero subscribers yields the informational
`noSubscribers` outcome. -/
def publish (h : Hub) (nSubs : Nat) (m : Message) : Hub × PublishOutcome :=
  ({ h with log := h.log ++ [m] },
   if nSubs = 0 then PublishOutcome.noSubscribers else PublishOutcome.delivered nSubs)

/-- Modelled from the spec: `subscribe` (the `queue.subscribe()` call in the
`events` handler) creates a Subscription whose cursor starts at "now", so it
observes only future publishes. -/
def subscribe (h : Hub) : Subscription := { cursor := h.log.length }

/-- The three outcomes of `rx.recv()` as matched in `src/main.rs`:
`Ok(msg)`, `Err(RecvError::Lagged(n))`, `Err(RecvError::Closed)`. -/
inductive RecvResult where
  | message (m : Message)
  | lagged (n : Nat)
  | closed
deriving DecidableEq, Repr

/-- Modelled from the spec: one `receive` call on a Subscription.  If the
cursor has fallen behind the retained window, the subscription is
force-advanced and `lagged(n)` reports exactly the number of messages
dropped for it; otherwise the next retained message is returned in publish
order; at the end of the sequence, `closed` is reported when the Hub is
closed, and `none` models the cooperative suspension while waiting for a
new message. -/
def receive (h : Hub) (s : Subscription) : Option (RecvResult × Subscription) :=
  if s.cursor < h.oldestRetained then
    some (RecvResult.lagged (h.oldestRetained - s.cursor),
          { cursor := h.oldestRetained })
  else if hc : s.cursor < h.log.length then
    some (RecvResult.message (h.log.get ⟨s.cursor, hc⟩), { cursor := s.cursor + 1 })
  else if h.closed then
    some (RecvResult.closed, s)
  else
    none

/-- Repeatedly `receive`, collecting delivered messages, until the call
would suspend or reports `closed`; `fuel` bounds the iteration. -/
def drainAux : Nat → Hub → Subscription → List Message
  | 0, _, _ => []
  | fuel + 1, h, s =>
    match receive h s with
    | some (RecvResult.message m, s2) => m :: drainAux fuel h s2
    | some (RecvResult.lagged _, s2) => drainAux fuel h s2
    | some (RecvResult.closed, _) => []
    | none => []

/-- All messages a Subscription observes from its current cursor, given no
further publishes (`h.log.length + 1` steps of fuel always suffice). -/
def drain (h : Hub) (s : Subscription) : List Message :=
  drainAux (h.log.length + 1) h s

/-- The `post` handler of `src/main.rs` together with Rocket's form
boundary: an invalid payload never reaches the handler (`none`), a valid
one is sent to the channel unchanged (`queue.send(form.into_inner())`). -/
def post (m : Message) (h : Hub) (nSubs : Nat) : Option (Hub × PublishOutcome) :=
  if validateMessage m then some (publish h nSubs m) else none

/-- The two states of the stream loop in the `events` handler: the loop is
either still running or has executed `break`. -/
inductive AdapterState where
  | running
  | stopped
deriving DecidableEq, Repr

/-- The possible winners of the `select!` race in one loop iteration of the
`events` handler: one of the three `rx.recv()` outcomes, or the `Shutdown`
future resolving first. -/
inductive RaceOutcome where
  | recvMsg (m : Message)
  | recvLagged (n : Nat)
  | recvClosed
  | cancelled
deriving DecidableEq, Repr

/-- One iteration of the `events` loop, from `src/main.rs`: `Ok(msg)`
yields `Event::json(&msg)` and keeps looping; `Err(Lagged(_))` continues
with no event; `Err(Closed)` breaks; the shutdown branch breaks. -/
def adapterStep : RaceOutcome → AdapterState × Option Message
  | RaceOutcome.recvMsg m => (AdapterState.running, some m)
  | RaceOutcome.recvLagged _ => (AdapterState.running, none)
  | RaceOutcome.recvClosed => (AdapterState.stopped, none)
  | RaceOutcome.cancelled => (AdapterState.stopped, none)

/-- The event sequence produced by the `events` loop along a trace of race
outcomes (the trace is the oracle for which branch of `select!` wins each
iteration). -/
def adapterRun : AdapterState → List RaceOutcome → List Message
  | AdapterState.stopped, _ => []
  | AdapterState.running, [] => []
  | AdapterState.running, o :: rest =>
    match adapterStep o with
    | (st, some m) => m :: adapterRun st rest
    | (st, none) => adapterRun st rest

/-- A room name of length exactly 30: one unit past what `len(..30)`
accepts. -/
def room30 : String := String.mk (List.replicate 30 'a')

/-- The spec's backpressure scenario: capacity `C = 3`, five messages
published while the subscriber is stalled at cursor 0. -/
def scenarioHub : Hub :=
  { capacity := 3,
    log := [⟨"a", "bob", "m1"⟩, ⟨"a", "bob", "m2"⟩, ⟨"a", "bob", "m3"⟩,
            ⟨"a", "bob", "m4"⟩, ⟨"a", "bob", "m5"⟩],
    closed := false }

/-- A fresh hub with the capacity configured in `rocket()`
(`channel::<Message>(1024)`) and nothing published yet. -/
def emptyHub : Hub := { capacity := 1024, log := [], closed := false }

theorem adapterRun_stopped (tr : List RaceOutcome) :
    adapterRun AdapterState.stopped tr = [] := by
  cases tr <;> rfl

theorem adapterRun_cancelled_drop (st : AdapterState) (pre rest : List RaceOutcome) :
    adapterRun st (pre ++ RaceOutcome.cancelled :: rest)
      = adapterRun st (pre ++ [RaceOutcome.cancelled]) := by
  induction pre generalizing st with
  | nil =>
    cases st with
    | running => simp [adapterRun, adapterStep, adapterRun_stopped]
    | stopped => simp [adapterRun_stopped]
  | cons o pre ih =>
    cases st with
    | stopped => simp [adapterRun_stopped]
    | running => cases o <;> simp [adapterRun, adapterStep, ih]

/-- C1: the `events` loop acts per the transition table: a received message
is emitted as exactly one outbound event carrying that message and the loop
stays running; a lagged outcome emits nothing and the loop goes straight to
the next receive; a closed outcome ends the produced sequence; the
cancellation (shutdown) branch ends the produced sequence; and once stopped
the loop never produces another event, whatever race outcomes follow. -/
theorem adapter_loop_transition_table :
    (∀ m rest, adapterRun AdapterState.running (RaceOutcome.recvMsg m :: rest)
        = m :: adapterRun AdapterState.running rest) ∧
    (∀ n rest, adapterRun AdapterState.running (RaceOutcome.recvLagged n :: rest)
        = adapterRun AdapterState.running rest) ∧
    (∀ rest, adapterRun AdapterState.running (RaceOutcome.recvClosed :: rest) = []) ∧
    (∀ rest, adapterRun AdapterState.running (RaceOutcome.cancelled :: rest) = []) ∧
    (∀ tr, adapterRun AdapterState.stopped tr = []) := by
  refine ⟨fun m rest => ?_, fun n rest => ?_, fun rest => ?_, fun rest => ?_,
    adapterRun_stopped⟩ <;>
  simp [adapterRun, adapterStep, adapterRun_stopped]

/-- C7: once the cancellation signal wins the race, the stream terminates:
the events produced along any trace are unaffected by everything after the
cancellation outcome (pending publishes are discarded), and a loop whose
next race outcome is cancellation emits no further event at all. -/
theorem cancellation_stops_stream (pre rest : List RaceOutcome) :
    adapterRun AdapterState.running (pre ++ RaceOutcome.cancelled :: rest)
      = adapterRun AdapterState.running (pre ++ [RaceOutcome.cancelled]) ∧
    adapterRun AdapterState.running (RaceOutcome.cancelled :: rest) = [] := by
  refine ⟨adapterRun_cancelled_drop _ _ _, ?_⟩
  simp [adapterRun, adapterStep, adapterRun_stopped]

/-- C2: publishing with zero subscriptions succeeds: the call is total
(never blocks or errors), returns the informational no-subscriber outcome,
and still records the message; the hub's capacity and lifecycle state are
untouched. -/
theorem publish_zero_subscribers (h : Hub) (m : Message) :
    (publish h 0 m).2 = PublishOutcome.noSubscribers ∧
    (publish h 0 m).1.log = h.log ++ [m] ∧
    (publish h 0 m).1.capacity = h.capacity ∧
    (publish h 0 m).1.closed = h.closed :=
  ⟨rfl, rfl, rfl, rfl⟩

/-- C10: validation imposes no lower bound and no content restriction: a
payload with empty room, empty username and any body whatsoever passes
validation, the body field is never inspected by validation, and such a
payload is published to the Hub unchanged. -/
theorem validation_no_lower_bound :
    (∀ body, validateMessage ⟨"", "", body⟩ = true) ∧
    (∀ m body, validateMessage ⟨m.room, m.username, body⟩ = validateMessage m) ∧
    (∀ body h nSubs, post ⟨"", "", body⟩ h nSubs
        = some (publish h nSubs ⟨"", "", body⟩)) :=
  ⟨fun _ => rfl, fun _ _ => rfl, fun _ _ _ => rfl⟩

theorem receive_lagged (h : Hub) (s : Subscription) (hlt : s.cursor < h.oldestRetained) :
    receive h s
      = some (RecvResult.lagged (h.oldestRetained - s.cursor), ⟨h.oldestRetained⟩) := by
  unfold receive
  rw [if_pos hlt]

theorem receive_message (h : Hub) (s : Subscription) (hge : h.oldestRetained ≤ s.cursor)
    (hc : s.cursor < h.log.length) :
    receive h s
      = some (RecvResult.message (h.log.get ⟨s.cursor, hc⟩), ⟨s.cursor + 1⟩) := by
  unfold receive
  rw [if_neg (Nat.not_lt.mpr hge), dif_pos hc]

theorem receive_end (h : Hub) (s : Subscription) (hc : h.log.length ≤ s.cursor) :
    receive h s = if h.closed then some (RecvResult.closed, s) else none := by
  have hge : h.oldestRetained ≤ s.cursor := le_trans (Nat.sub_le _ _) hc
  unfold receive
  rw [if_neg (Nat.not_lt.mpr hge), dif_neg (Nat.not_lt.mpr hc)]

theorem drainAux_succ (fuel : Nat) (h : Hub) (s : Subscription) :
    drainAux (fuel + 1) h s
      = match receive h s with
        | some (RecvResult.message m, s2) => m :: drainAux fuel h s2
        | some (RecvResult.lagged _, s2) => drainAux fuel h s2
        | some (RecvResult.closed, _) => []
        | none => [] := rfl

theorem drainAux_eq_drop (fuel : Nat) (h : Hub) (c : Nat)
    (hge : h.oldestRetained ≤ c) (hfuel : h.log.length - c < fuel) :
    drainAux fuel h ⟨c⟩ = h.log.drop c := by
  induction fuel generalizing c with
  | zero => exact absurd hfuel (Nat.not_lt_zero _)
  | succ fuel ih =>
    by_cases hc : c < h.log.length
    · rw [drainAux_succ, receive_message h ⟨c⟩ hge hc]
      show h.log.get ⟨c, hc⟩ :: drainAux fuel h ⟨c + 1⟩ = h.log.drop c
      rw [ih (c + 1) (by omega) (by omega), List.get_eq_getElem]
      exact (List.drop_eq_getElem_cons hc).symm
    · have hc' : h.log.length ≤ c := Nat.le_of_not_lt hc
      rw [drainAux_succ, receive_end h ⟨c⟩ hc']
      by_cases hcl : h.closed = true
      · rw [if_pos hcl]
        show ([] : List Message) = h.log.drop c
        exact (List.drop_eq_nil_of_le hc').symm
      · rw [if_neg hcl]
        show ([] : List Message) = h.log.drop c
        exact (List.drop_eq_nil_of_le hc').symm

theorem drain_eq_drop (h : Hub) (s : Subscription) :
    drain h s = h.log.drop (max s.cursor h.oldestRetained) := by
  unfold drain
  by_cases hlt : s.cursor < h.oldestRetained
  · rw [drainAux_succ, receive_lagged h s hlt]
    show drainAux h.log.length h ⟨h.oldestRetained⟩ = _
    have ho : h.oldestRetained = h.log.length - h.capacity := rfl
    have hmax : max s.cursor h.oldestRetained = h.oldestRetained := by omega
    rw [hmax]
    exact drainAux_eq_drop h.log.length h h.oldestRetained (le_refl _) (by omega)
  · have hge : h.oldestRetained ≤ s.cursor := Nat.le_of_not_lt hlt
    have hmax : max s.cursor h.oldestRetained = s.cursor := by omega
    rw [hmax]
    exact drainAux_eq_drop (h.log.length + 1) h s.cursor hge (by omega)

/-- C5: the sequence of messages a Subscription observes is exactly the
published sequence from its cursor with the lag-dropped ones omitted (a
suffix of the log, starting at the cursor or at the oldest retained
message, whichever is later), and in particular it is an order-preserving
subsequence both of the messages published after its cursor and of the
whole published sequence. -/
theorem observed_subsequence_of_published (h : Hub) (s : Subscription) :
    drain h s = h.log.drop (max s.cursor h.oldestRetained) ∧
    List.Sublist (drain h s) (h.log.drop s.cursor) ∧
    List.Sublist (drain h s) h.log := by
  have hd := drain_eq_drop h s
  refine ⟨hd, ?_, ?_⟩
  · rw [hd]
    have hm : max s.cursor h.oldestRetained
        = s.cursor + (max s.cursor h.oldestRetained - s.cursor) := by omega
    rw [hm, ← List.drop_drop]
    exact (List.drop_suffix _ _).sublist
  · rw [hd]
    exact (List.drop_suffix _ _).sublist

/-- C6: a Subscription created when the published sequence was `pre`
observes, of the later log `pre ++ rest`, only a suffix of `rest`: it never
observes any message published strictly before its creation, whatever the
capacity and closed state of the Hub at the two moments. -/
theorem subscribe_no_back_delivery (cap : Nat) (cl cl2 : Bool) (pre rest : List Message) :
    List.IsSuffix
      (drain { capacity := cap, log := pre ++ rest, closed := cl2 }
        (subscribe { capacity := cap, log := pre, closed := cl }))
      rest := by
  have hd := drain_eq_drop { capacity := cap, log := pre ++ rest, closed := cl2 }
      (subscribe { capacity := cap, log := pre, closed := cl })
  rw [hd]
  show List.IsSuffix
      ((pre ++ rest).drop
        (max pre.length (Hub.oldestRetained ⟨cap, pre ++ rest, cl2⟩))) rest
  have hm : max pre.length (Hub.oldestRetained ⟨cap, pre ++ rest, cl2⟩)
      = pre.length
        + (max pre.length (Hub.oldestRetained ⟨cap, pre ++ rest, cl2⟩) - pre.length) := by
    omega
  rw [hm, List.drop_append]
  exact List.drop_suffix _ _

/-- C4: a subscriber that has fallen behind the retained window observes on
its next receive a lagged outcome whose count is exactly the number of
messages dropped for it (the distance from its cursor to the oldest
retained message), and the subsequent receives deliver precisely the
still-retained suffix of the log — the `min C (length log)` newest
messages — in publish order. -/
theorem lag_reports_dropped_count (h : Hub) (s : Subscription)
    (hlag : s.cursor < h.oldestRetained) :
    receive h s
      = some (RecvResult.lagged (h.oldestRetained - s.cursor), ⟨h.oldestRetained⟩) ∧
    drain h s = h.log.drop h.oldestRetained ∧
    (h.log.drop h.oldestRetained).length = min h.capacity h.log.length := by
  refine ⟨receive_lagged h s hlag, ?_, ?_⟩
  · rw [drain_eq_drop]
    have hmax : max s.cursor h.oldestRetained = h.oldestRetained := by omega
    rw [hmax]
  · rw [List.length_drop]
    have ho : h.oldestRetained = h.log.length - h.capacity := rfl
    omega

/-- Witness for C4, the spec's own scenario: capacity 3, five messages
published while the subscriber is stalled at cursor 0 — the next receive
reports lagged(2) and the remaining receives deliver the three newest
messages in publish order. -/
theorem lag_reports_dropped_count_witness :
    ((⟨0⟩ : Subscription).cursor < scenarioHub.oldestRetained ∧
     (receive scenarioHub ⟨0⟩
        = some (RecvResult.lagged
            (scenarioHub.oldestRetained - (⟨0⟩ : Subscription).cursor),
          ⟨scenarioHub.oldestRetained⟩) ∧
      drain scenarioHub ⟨0⟩ = scenarioHub.log.drop scenarioHub.oldestRetained ∧
      (scenarioHub.log.drop scenarioHub.oldestRetained).length
        = min scenarioHub.capacity scenarioHub.log.length)) ∧
    scenarioHub.oldestRetained - (⟨0⟩ : Subscription).cursor = 2 ∧
    scenarioHub.log.drop scenarioHub.oldestRetained
      = [⟨"a", "bob", "m3"⟩, ⟨"a", "bob", "m4"⟩, ⟨"a", "bob", "m5"⟩] :=
  ⟨⟨by decide, lag_reports_dropped_count scenarioHub ⟨0⟩ (by decide)⟩,
   by decide, by decide⟩

/-- C8: a receive call that completes returns exactly one of the three
outcomes — a message, lagged(n), or closed — (the `none` case is the
cooperative suspension while no outcome is available, not a fourth
outcome); the closed outcome leaves the subscription unchanged, so every
later receive on it returns closed again (terminal), while after a lagged
outcome the very next receive delivers a message (lag is not an end
condition), with a strictly positive drop count. -/
theorem receive_three_outcomes (h : Hub) (s : Subscription) (hcap : 0 < h.capacity) :
    ((∃ m s2, receive h s = some (RecvResult.message m, s2)) ∨
     (∃ n s2, receive h s = some (RecvResult.lagged n, s2)) ∨
     receive h s = some (RecvResult.closed, s) ∨
     receive h s = none) ∧
    (∀ n s2, receive h s = some (RecvResult.lagged n, s2) →
       0 < n ∧ ∃ m s3, receive h s2 = some (RecvResult.message m, s3)) := by
  have ho : h.oldestRetained = h.log.length - h.capacity := rfl
  constructor
  · by_cases h1 : s.cursor < h.oldestRetained
    · exact Or.inr (Or.inl ⟨_, _, receive_lagged h s h1⟩)
    · by_cases h2 : s.cursor < h.log.length
      · exact Or.inl ⟨_, _, receive_message h s (Nat.le_of_not_lt h1) h2⟩
      · by_cases hcl : h.closed = true
        · refine Or.inr (Or.inr (Or.inl ?_))
          rw [receive_end h s (Nat.le_of_not_lt h2), if_pos hcl]
        · refine Or.inr (Or.inr (Or.inr ?_))
          rw [receive_end h s (Nat.le_of_not_lt h2), if_neg hcl]
  · intro n s2 hrec
    by_cases h1 : s.cursor < h.oldestRetained
    · rw [receive_lagged h s h1] at hrec
      have hinj : h.oldestRetained - s.cursor = n
          ∧ (⟨h.oldestRetained⟩ : Subscription) = s2 := by
        simpa using hrec
      obtain ⟨hn1, hn2⟩ := hinj
      have hlen : h.oldestRetained < h.log.length := by omega
      refine ⟨by omega, ?_⟩
      rw [← hn2]
      exact ⟨_, _, receive_message h ⟨h.oldestRetained⟩ (le_refl _) hlen⟩
    · exfalso
      by_cases h2 : s.cursor < h.log.length
      · rw [receive_message h s (Nat.le_of_not_lt h1) h2] at hrec
        simp at hrec
      · rw [receive_end h s (Nat.le_of_not_lt h2)] at hrec
        by_cases hcl : h.closed = true
        · rw [if_pos hcl] at hrec
          simp at hrec
        · rw [if_neg hcl] at hrec
          simp at hrec

/-- Witness for C8 at the concrete stalled-subscriber hub. -/
theorem receive_three_outcomes_witness :
    0 < scenarioHub.capacity ∧
    (((∃ m s2, receive scenarioHub ⟨0⟩ = some (RecvResult.message m, s2)) ∨
      (∃ n s2, receive scenarioHub ⟨0⟩ = some (RecvResult.lagged n, s2)) ∨
      receive scenarioHub ⟨0⟩ = some (RecvResult.closed, ⟨0⟩) ∨
      receive scenarioHub ⟨0⟩ = none) ∧
     (∀ n s2, receive scenarioHub ⟨0⟩ = some (RecvResult.lagged n, s2) →
        0 < n ∧ ∃ m s3, receive scenarioHub s2 = some (RecvResult.message m, s3))) :=
  ⟨by decide, receive_three_outcomes scenarioHub ⟨0⟩ (by decide)⟩

theorem receive_after_publish (h : Hub) (nSubs : Nat) (m : Message) (s : Subscription)
    (hcap : 0 < h.capacity) (hc : s.cursor = h.log.length) :
    receive (publish h nSubs m).1 s = some (RecvResult.message m, ⟨s.cursor + 1⟩) := by
  have hlen : (publish h nSubs m).1.log.length = h.log.length + 1 := by
    simp [publish]
  have hcp : (publish h nSubs m).1.capacity = h.capacity := rfl
  have hge : (publish h nSubs m).1.oldestRetained ≤ s.cursor := by
    have ho : (publish h nSubs m).1.oldestRetained
        = (publish h nSubs m).1.log.length - (publish h nSubs m).1.capacity := rfl
    omega
  have hlt : s.cursor < (publish h nSubs m).1.log.length := by omega
  rw [receive_message _ s hge hlt]
  have hget : (publish h nSubs m).1.log.get ⟨s.cursor, hlt⟩ = m := by
    rw [List.get_eq_getElem]
    exact List.getElem_concat_length h.log m s.cursor hc _
  rw [hget]

/-- C9: publish followed by receive is a round trip: a caught-up subscriber
whose next receive follows a publish gets back exactly the published
message, unmodified; and two caught-up subscribers each independently
receive that identical message. -/
theorem publish_receive_roundtrip (h : Hub) (m : Message) (nSubs : Nat)
    (s1 s2 : Subscription) (hcap : 0 < h.capacity)
    (hc1 : s1.cursor = h.log.length) (hc2 : s2.cursor = h.log.length) :
    receive (publish h nSubs m).1 s1 = some (RecvResult.message m, ⟨s1.cursor + 1⟩) ∧
    receive (publish h nSubs m).1 s2 = some (RecvResult.message m, ⟨s2.cursor + 1⟩) :=
  ⟨receive_after_publish h nSubs m s1 hcap hc1,
   receive_after_publish h nSubs m s2 hcap hc2⟩

/-- Witness for C9: publishing the spec's example message on the fresh hub
with two subscribers, both of which then receive it. -/
theorem publish_receive_roundtrip_witness :
    0 < emptyHub.capacity ∧
    (⟨0⟩ : Subscription).cursor = emptyHub.log.length ∧
    (receive (publish emptyHub 2 ⟨"a", "bob", "hi"⟩).1 ⟨0⟩
        = some (RecvResult.message ⟨"a", "bob", "hi"⟩,
            ⟨(⟨0⟩ : Subscription).cursor + 1⟩) ∧
     receive (publish emptyHub 2 ⟨"a", "bob", "hi"⟩).1 ⟨0⟩
        = some (RecvResult.message ⟨"a", "bob", "hi"⟩,
            ⟨(⟨0⟩ : Subscription).cursor + 1⟩)) :=
  ⟨by decide, by decide,
   publish_receive_roundtrip emptyHub ⟨"a", "bob", "hi"⟩ 2 ⟨0⟩ ⟨0⟩
     (by decide) (by decide) (by decide)⟩

/-- Counterexample to C3 as stated: a payload whose room has length exactly
30 (within the claimed "at most 30 units") and whose username is well
within bounds fails validation — `len(..30)` is an exclusive Rust range —
so the payload is rejected at the boundary and never reaches the Hub. -/
theorem room_length_30_rejected :
    room30.length ≤ 30 ∧ (⟨room30, "bob", "hi"⟩ : Message).username.length ≤ 20 ∧
    validateMessage ⟨room30, "bob", "hi"⟩ = false ∧
    post ⟨room30, "bob", "hi"⟩ emptyHub 1 = none := by
  refine ⟨by decide, by decide, by decide, by decide⟩

/-- C3 (amended): the inbound publish boundary accepts any payload whose
room has length strictly below 30 units (at most 29) and whose username
has length strictly below 20 units (at most 19), the body being unbounded;
every such payload passes validation and is handed to the Hub as a Message
unchanged. -/
theorem validation_strict_bounds (m : Message) (h : Hub) (nSubs : Nat)
    (hr : m.room.length < 30) (hu : m.username.length < 20) :
    validateMessage m = true ∧
    post m h nSubs = some (publish h nSubs m) ∧
    (post m h nSubs).map (fun p => p.1.log) = some (h.log ++ [m]) := by
  have hv : validateMessage m = true := by
    simp [validateMessage, validRoom, validUsername, hr, hu]
  refine ⟨hv, ?_, ?_⟩
  · simp [post, hv]
  · simp [post, hv, publish]

/-- Witness for the amended C3 at a concrete in-bounds payload. -/
theorem validation_strict_bounds_witness :
    (⟨"a", "bob", "hi"⟩ : Message).room.length < 30 ∧
    (⟨"a", "bob", "hi"⟩ : Message).username.length < 20 ∧
    (validateMessage ⟨"a", "bob", "hi"⟩ = true ∧
     post ⟨"a", "bob", "hi"⟩ emptyHub 1 = some (publish emptyHub 1 ⟨"a", "bob", "hi"⟩) ∧
     (post ⟨"a", "bob", "hi"⟩ emptyHub 1).map (fun p => p.1.log)
        = some (emptyHub.log ++ [⟨"a", "bob", "hi"⟩])) :=
  ⟨by decide, by decide,
   validation_strict_bounds ⟨"a", "bob", "hi"⟩ emptyHub 1 (by decide) (by decide)⟩
